import Mathlib

/-!
Verification of the content indexing and tag-scoped retrieval subsystem of
`do_you_npc` (the `loader.py` / `manager.py` / `retriever.py` trio under
`do_you_npc/vectorstore/`).

Modelling conventions:
* Python strings holding document text are modelled as `List Char`
  (character sequences); file names, tag names and campaign names, which are
  only compared for equality, stay `String`.
* A file path relative to a root directory is its list of segments
  (`pathlib.Path.parts`), e.g. `campaigns/c/tags/t.txt` is
  `["campaigns", "c", "tags", "t.txt"]`.
* Python truthiness on optional strings (`if campaign:`) is explicit:
  `None` and `""` are falsy, every other string is truthy.
* The filesystem is modelled as the list of `*.txt` file paths present;
  a directory-existence check (`tag_dir.exists()`) is subsumed, since a
  missing directory contains no files and both code paths then return the
  empty list of documents.
* Timestamps (`datetime`) are modelled as integers with their total order.
-/

set_option autoImplicit false
set_option maxRecDepth 100000

namespace DoYouNpc

/-! ### Path classification — `loader.py`, `TextFileLoader._extract_metadata` -/

/-- The `metadata['type']` values `'campaign_tag'` / `'global_tag'` / `'other'`. -/
inductive Scope where
  | campaign_tag
  | global_tag
  | other
deriving DecidableEq, Repr

/-- The scope-determining part of the metadata dictionary built by
`_extract_metadata`: `type`, `campaign` (a string or `None`) and `tag_name`. -/
structure TagMetadata where
  type : Scope
  campaign : Option String
  tag_name : String
deriving DecidableEq, Repr

/-- Index of the last `'.'` in a character list (`str.rfind('.')` when it hits). -/
def lastDotIdx (cs : List Char) : Option Nat :=
  match cs.reverse.findIdx? (· = '.') with
  | some j => some (cs.length - 1 - j)
  | none => none

/-- `pathlib.PurePath.stem` on a file name: the name up to its last `'.'`,
except that a leading dot or a trailing dot is not treated as a suffix
separator (`.hidden` and `file.` keep their full name). -/
def pathStem (name : String) : String :=
  let cs := name.toList
  match lastDotIdx cs with
  | some i => if 0 < i ∧ i < cs.length - 1 then String.mk (cs.take i) else name
  | none => name

/-- `TextFileLoader._extract_metadata`, scope-determining part, on the path's
segments relative to the source directory.  `parts[0]` on an empty segment
list would raise in Python; a file's relative path is never empty, and the
model returns `none` there. -/
def extract_metadata (parts : List String) : Option TagMetadata :=
  match parts with
  | [] => none
  | p0 :: rest =>
    let stem := pathStem ((p0 :: rest).getLastD "")
    if p0 = "campaigns" ∧ (p0 :: rest).length ≥ 4 then
      some { type := Scope.campaign_tag, campaign := rest.head?, tag_name := stem }
    else if p0 = "global" ∧ (p0 :: rest).length ≥ 3 then
      some { type := Scope.global_tag, campaign := none, tag_name := stem }
    else
      some { type := Scope.other, campaign := none, tag_name := stem }

/-! ### Tag document loading — `loader.py`, `TextFileLoader.load_tag_documents` -/

/-- Python truthiness of an optional string: `None` and `""` are falsy. -/
def pyTruthy : Option String → Bool
  | none => false
  | some s => s ≠ ""

/-- A document as loaded by `load_document`: its relative path segments and
the metadata extracted from them (file content plays no role in the claims
about loading, so it is omitted here). -/
structure LoadedDoc where
  parts : List String
  meta : Option TagMetadata
deriving DecidableEq, Repr

/-- `load_document` restricted to the metadata the claims observe. -/
def load_document (parts : List String) : LoadedDoc :=
  { parts := parts, meta := extract_metadata parts }

/-- `p` is a path of form `dir/<name>.txt` with `name.txt` directly inside
`dir` — what `multi_dir.glob("*.txt")` yields. -/
def directTxtChildOf (dir p : List String) : Bool :=
  p.length = dir.length + 1 && p.take dir.length = dir
    && (p.getLastD "").endsWith ".txt"

/-- `TextFileLoader.load_tag_documents`: `fs` is the list of `*.txt` file
paths present under the source directory (in scan order).  The tag directory
is `campaigns/<campaign>/tags` when `campaign` is truthy and `global/tags`
otherwise; a single file `<tag>.txt` and the files directly inside a
directory `<tag>/` are both returned. -/
def load_tag_documents (fs : List (List String)) (tag_name : String)
    (campaign : Option String) : List LoadedDoc :=
  let tagDir := if pyTruthy campaign
    then ["campaigns", campaign.getD "", "tags"]
    else ["global", "tags"]
  let singleFile := tagDir ++ [tag_name ++ ".txt"]
  let singleDocs := if singleFile ∈ fs then [load_document singleFile] else []
  let multiDir := tagDir ++ [tag_name]
  singleDocs ++ (fs.filter (directTxtChildOf multiDir)).map load_document

/-! ### Retrieval — `retriever.py`, `TagRetriever` -/

/-- A chunk as stored in the vector store: its text plus the metadata fields
the retriever reads.  `metaTagName`/`metaCampaign` model
`doc.metadata.get('tag_name', ...)` and the `campaign` metadata field. -/
structure Chunk where
  page_content : List Char
  metaTagName : Option String
  metaCampaign : Option String
deriving DecidableEq, Repr

/-- A metadata filter passed to `similarity_search`: optional exact-match
constraints on `tag_name` and `campaign`. -/
structure SearchFilter where
  tagName : Option String
  campaign : Option String
deriving DecidableEq, Repr

/-- The EmbeddingIndex query contract (external collaborator): given a query
string, a bound `k` and a metadata filter, return a ranked chunk list. -/
def VStore : Type := String → Nat → SearchFilter → List Chunk

/-- A concrete model of the EmbeddingIndex contract over a stored chunk
list: the chunks matching the filter, best-first order abstracted as store
order, with `k` bounding the result count. -/
def storeOf (chunks : List Chunk) : VStore := fun _query k f =>
  (chunks.filter (fun c =>
    (match f.tagName with
     | none => true
     | some t => c.metaTagName = some t)
    && (match f.campaign with
        | none => true
        | some cp => c.metaCampaign = some cp))).take k

/-- `TagRetriever.search_tags`: delegate to the store with an optional
campaign filter (`if campaign:` truthiness included); `[]` when the vector
store is unavailable. -/
def search_tags (vs : Option VStore) (query : String) (k : Nat)
    (campaign : Option String) : List Chunk :=
  match vs with
  | none => []
  | some q =>
    q query k { tagName := none
                campaign := if pyTruthy campaign then campaign else none }

/-- `TagRetriever.search_by_tag_name`: filter on `tag_name` (and `campaign`
when truthy), using the tag name itself as query text. -/
def search_by_tag_name (vs : Option VStore) (tag_name : String)
    (campaign : Option String) (k : Nat) : List Chunk :=
  match vs with
  | none => []
  | some q =>
    q tag_name k { tagName := some tag_name
                   campaign := if pyTruthy campaign then campaign else none }

/-- The truncation inside `get_relevant_tags_for_persona`:
`content[:300] + "..."` when the content exceeds 300 characters. -/
def truncateContext (content : List Char) : List Char :=
  if content.length > 300 then content.take 300 ++ ['.', '.', '.'] else content

/-- `TagRetriever.get_relevant_tags_for_persona`, translated from the
source: per-tag loop (`k=2` each) first, then one `search_tags` call iff
`query` is truthy and the accumulator is short of `k`, then `[:k]`. -/
def get_relevant_tags_for_persona (vs : Option VStore)
    (persona_tags : List String) (query : String) (campaign : Option String)
    (k : Nat) : List (String × List Char) :=
  match vs with
  | none => []
  | some _ =>
    let base := persona_tags.flatMap (fun t =>
      (search_by_tag_name vs t campaign 2).map
        (fun d => (t, truncateContext d.page_content)))
    let full := if query ≠ "" ∧ base.length < k then
        base ++ (search_tags vs query (k - base.length) campaign).map
          (fun d => (d.metaTagName.getD "unknown", truncateContext d.page_content))
      else base
    full.take k

/-- The assembly algorithm as the spec words it (§4.3
`assemble_persona_context`): an accumulator built tag by tag in the caller's
order, up to 2 chunks per tag each truncated, then — iff the query is
non-empty and the accumulator holds fewer than `k` entries — one
`similarity_search(query, k - len(acc), campaign)` whose results are
appended, and finally the first `k` entries of the accumulator. -/
def assemble_persona_context_spec (vs : Option VStore)
    (tags : List String) (query : String) (campaign : Option String)
    (k : Nat) : List (String × List Char) :=
  match vs with
  | none => []
  | some _ =>
    let acc := tags.foldl (fun acc t =>
      acc ++ (search_by_tag_name vs t campaign 2).map
        (fun d => (t, truncateContext d.page_content))) []
    let acc2 := if query ≠ "" ∧ acc.length < k then
        acc ++ (search_tags vs query (k - acc.length) campaign).map
          (fun d => (d.metaTagName.getD "unknown", truncateContext d.page_content))
      else acc
    acc2.take k

/-! ### Chunking — `manager.py` configures langchain's
`RecursiveCharacterTextSplitter(chunk_size, chunk_overlap, separators=["\n\n", "\n", " ", ""])`;
the splitter implementation itself is library code outside this repository. -/

/-- Modelled from the spec: the chunker (`RecursiveCharacterTextSplitter`)
is external library code not present in the repository — `manager.py` only
configures it.  Per §3's Chunk invariant and §4.2, splitting is modelled at
character granularity: each chunk holds at most `chunkSize` characters and
shares its first `chunkOverlap` characters with the previous chunk's tail
(the separator-priority boundary preference is a placement heuristic not
modelled here).  When the text fits in one chunk, or the configuration is
degenerate (`chunkOverlap ≥ chunkSize`), the text is a single chunk. -/
def splitText (chunkSize chunkOverlap : Nat) (text : List Char) :
    List (List Char) :=
  if text.length ≤ chunkSize ∨ chunkSize ≤ chunkOverlap then [text]
  else
    text.take chunkSize ::
      splitText chunkSize chunkOverlap (text.drop (chunkSize - chunkOverlap))
termination_by text.length
decreasing_by
  simp only [List.length_drop]
  push_neg at *
  omega

/-- Re-joining chunks with the overlapping prefixes stripped: the first
chunk whole, every later chunk minus its first `chunkOverlap` characters. -/
def rejoinChunks (chunkOverlap : Nat) : List (List Char) → List Char
  | [] => []
  | c :: rest => c ++ (rest.map (List.drop chunkOverlap)).flatten

/-! ### Index lifecycle — `manager.py`, `VectorStoreManager` -/

/-- A JSON value, as produced by `json.load` on the checkpoint file. -/
inductive JsonVal where
  | jnull
  | jbool (b : Bool)
  | jnum (n : Int)
  | jstr (s : String)
  | jarr (elems : List JsonVal)
  | jobj (fields : List (String × JsonVal))

/-- Python `dict` built by `json.load` from an object: with duplicate keys,
the last occurrence wins. -/
def jsonLookup (fields : List (String × JsonVal)) (key : String) :
    Option JsonVal :=
  (fields.reverse.find? (fun f => f.1 = key)).map (fun f => f.2)

/-- An exception escaping `get_last_updated` (not caught by its
`except (json.JSONDecodeError, KeyError, ValueError)` clause). -/
inductive PyErr where
  | typeError
deriving DecidableEq, Repr

/-- The checkpoint file `processed/last_updated.json` as seen by the code:
absent (`none`), present but not valid JSON (`some none`), or present with
a parsed JSON value (`some (some v)`). -/
def CheckpointFile : Type := Option (Option JsonVal)

/-- `VectorStoreManager.get_last_updated`: `None` when the file is absent;
`json.JSONDecodeError`, `KeyError` (object without the key) and
`ValueError` (string that `datetime.fromisoformat` rejects) are caught and
yield `None`; but subscripting a non-dict JSON document, or passing a
non-string to `fromisoformat`, raises an uncaught `TypeError`.  `parseISO`
models `datetime.fromisoformat`, timestamps as integers. -/
def get_last_updated (parseISO : String → Option Int)
    (file : CheckpointFile) : Except PyErr (Option Int) :=
  match file with
  | none => Except.ok none
  | some none => Except.ok none
  | some (some (JsonVal.jobj fields)) =>
    match jsonLookup fields "last_updated" with
    | none => Except.ok none
    | some (JsonVal.jstr s) =>
      match parseISO s with
      | none => Except.ok none
      | some t => Except.ok (some t)
    | some _ => Except.error PyErr.typeError
  | some (some _) => Except.error PyErr.typeError

/-- The staleness test of `needs_update` given `get_last_updated`'s result
and the modification times of the `*.txt` files under the source dir: stale
when no timestamp is known, or some file is strictly newer. -/
def needs_update_from (lastUpdated : Option Int) (mtimes : List Int) : Bool :=
  match lastUpdated with
  | none => true
  | some t => mtimes.any (fun m => t < m)

/-- `VectorStoreManager.needs_update`: reads the checkpoint through
`get_last_updated` (whose uncaught `TypeError` propagates), then compares
source file modification times against it. -/
def needs_update (parseISO : String → Option Int) (file : CheckpointFile)
    (mtimes : List Int) : Except PyErr Bool :=
  (get_last_updated parseISO file).map (fun lu => needs_update_from lu mtimes)

/-- A source document as loaded by `load_all_documents`: path segments,
text content, and the file's modification time. -/
structure SrcDoc where
  parts : List String
  content : List Char
  mtime : Int
deriving DecidableEq, Repr

/-- The manager's on-disk state.  `index` is the vector store storage:
`none` models `vectorstore_dir` absent or empty (the code always tests
`exists() and any(iterdir())`, so the two collapse), `some chunks` a
non-empty storage holding the given chunk texts.  `checkpoint` is
`get_last_updated`'s result on the checkpoint file (the file-level model is
`get_last_updated` above).  `sourceDocs` is what `load_all_documents`
finds. -/
structure MState where
  index : Option (List (List Char))
  checkpoint : Option Int
  sourceDocs : List SrcDoc
deriving DecidableEq, Repr

/-- Modification times of the source `*.txt` files of a state. -/
def MState.mtimes (st : MState) : List Int := st.sourceDocs.map SrcDoc.mtime

/-- Externally determined behaviour of one `create_vectorstore` run: the
current time written to the checkpoint, and whether the embedding-service /
Chroma create-or-add call succeeds. -/
structure BuildEnv where
  now : Int
  embedOk : Bool
deriving DecidableEq, Repr

/-- A storage or embedding-service failure during index create/add. -/
inductive BuildErr where
  | indexBuild
deriving DecidableEq, Repr

/-- Outcome of a manager operation: normal return with the new state and
the returned vector store (`none` models Python `None`), or an exception
raised with the state at that point. -/
inductive BuildResult where
  | done (st : MState) (handle : Option (List (List Char)))
  | raised (st : MState) (e : BuildErr)
deriving DecidableEq, Repr

/-- `VectorStoreManager.create_vectorstore`: optional clean of the storage,
load all documents (empty corpus returns `None` before touching index or
checkpoint), split them, then create a new index or append to the existing
one — on failure the exception propagates before any checkpoint write; on
success the checkpoint is set to the current time.  Partial index writes on
failure are a property of the external store (spec §4.2) and no claim here
observes them, so `index` is kept as-is in the `raised` outcome. -/
def create_vectorstore (env : BuildEnv) (clean_start : Bool)
    (chunk_size chunk_overlap : Nat) (st : MState) : BuildResult :=
  let st1 := if clean_start then { st with index := none } else st
  if st1.sourceDocs.isEmpty then BuildResult.done st1 none
  else
    let splits := st1.sourceDocs.flatMap
      (fun d => splitText chunk_size chunk_overlap d.content)
    if env.embedOk then
      let newIndex := match st1.index with
        | some chunks => chunks ++ splits
        | none => splits
      BuildResult.done
        { st1 with index := some newIndex, checkpoint := some env.now }
        (some newIndex)
    else BuildResult.raised st1 BuildErr.indexBuild

/-- The branch taken by `get_vectorstore`, with the `clean_start` argument
it passes to `create_vectorstore` (the absent/empty-storage branch calls
`create_vectorstore()` with the default `clean_start=False`). -/
inductive VSAction where
  | rebuild (clean_start : Bool)
  | openExisting
deriving DecidableEq, Repr

/-- The dispatch of `VectorStoreManager.get_vectorstore`, as performed by
the source. -/
def get_vectorstore_action (st : MState) : VSAction :=
  if st.index.isNone then VSAction.rebuild false
  else if needs_update_from st.checkpoint st.mtimes then VSAction.rebuild false
  else VSAction.openExisting

/-- `VectorStoreManager.get_vectorstore`: rebuild when the storage is
absent/empty or stale (both with `clean_start=False`, default chunk
parameters 1000/200), else open and return the existing store without any
write. -/
def get_vectorstore (env : BuildEnv) (st : MState) : BuildResult :=
  if st.index.isNone then create_vectorstore env false 1000 200 st
  else if needs_update_from st.checkpoint st.mtimes then
    create_vectorstore env false 1000 200 st
  else BuildResult.done st (some (st.index.getD []))

/-! ### Concrete stores used by examples -/

/-- Three stored chunks for tag `a` and one for tag `b` (global scope). -/
def exampleChunksAB : List Chunk :=
  [ { page_content := ['1'], metaTagName := some "a", metaCampaign := none }
  , { page_content := ['2'], metaTagName := some "a", metaCampaign := none }
  , { page_content := ['3'], metaTagName := some "a", metaCampaign := none }
  , { page_content := ['4'], metaTagName := some "b", metaCampaign := none } ]

/-- The vector store holding `exampleChunksAB`. -/
def exampleStoreAB : Option VStore := some (storeOf exampleChunksAB)

/-- One stored chunk for tag `a` whose text is 400 characters long. -/
def exampleChunks400 : List Chunk :=
  [ { page_content := List.replicate 400 'x'
    , metaTagName := some "a", metaCampaign := none } ]

/-- The vector store holding `exampleChunks400`. -/
def exampleStore400 : Option VStore := some (storeOf exampleChunks400)

/-! ### Helper lemmas -/

theorem foldl_append_eq_flatMap {α β : Type} (f : α → List β) (l : List α)
    (init : List β) :
    l.foldl (fun acc t => acc ++ f t) init = init ++ l.flatMap f := by
  induction l generalizing init with
  | nil => simp
  | cons x xs ih => simp [ih, List.append_assoc]

theorem truncateContext_length_le (c : List Char) :
    (truncateContext c).length ≤ 303 := by
  unfold truncateContext
  split
  · simp [List.length_take]
  · omega

/-! ### Claim C1 -/

/-- C1, counterexample to the claim's concrete instance: with tags
`["a","b"]`, empty query, `k = 10`, 3 stored chunks for `"a"` and 1 for
`"b"`, `get_relevant_tags_for_persona` returns 3 entries (2 capped for
`"a"` plus `"b"`'s single chunk), not 4 as the claim states. -/
theorem C1_counterexample :
    (get_relevant_tags_for_persona exampleStoreAB ["a", "b"] "" none 10).length = 3
    ∧ (get_relevant_tags_for_persona exampleStoreAB ["a", "b"] "" none 10).length ≠ 4 := by
  constructor <;> decide

/-- C1 (amended): `get_relevant_tags_for_persona` follows the exact
assembly algorithm of the spec — per-tag accumulation in the caller's
order with up to 2 chunks per tag, then one `similarity_search` with
`k - len(acc)` iff the query is non-empty and the accumulator is short of
`k`, capped to the first `k` entries — and on the claim's concrete
instance (tags `["a","b"]`, empty query, `k = 10`, 3 chunks stored for
`"a"`, 1 for `"b"`) it returns exactly 3 entries in order a, a, b. -/
theorem C1_assembly_algorithm :
    (∀ (vs : Option VStore) (tags : List String) (query : String)
        (campaign : Option String) (k : Nat),
      get_relevant_tags_for_persona vs tags query campaign k
        = assemble_persona_context_spec vs tags query campaign k)
    ∧ get_relevant_tags_for_persona exampleStoreAB ["a", "b"] "" none 10
        = [("a", ['1']), ("a", ['2']), ("b", ['4'])] := by
  constructor
  · intro vs tags query campaign k
    cases vs with
    | none => rfl
    | some q =>
      unfold get_relevant_tags_for_persona assemble_persona_context_spec
      rw [foldl_append_eq_flatMap]
      simp
  · decide

/-! ### Claim C4 -/

/-- C4, counterexample: a stored chunk of 400 characters yields a context
entry of 303 characters (`content[:300] + "..."`), so the returned content
is not bounded by 300 characters. -/
theorem C4_counterexample :
    ¬ (∀ p ∈ get_relevant_tags_for_persona exampleStore400 ["a"] "" none 10,
        p.2.length ≤ 300) := by
  decide

/-- C4 (amended): every content string returned by
`get_relevant_tags_for_persona` has length at most 303 characters — 300
characters of chunk text plus the 3-character ellipsis appended when the
chunk exceeds 300 characters — for every store, tag list, query, campaign
and `k`. -/
theorem C4_truncation_bound (vs : Option VStore) (tags : List String)
    (query : String) (campaign : Option String) (k : Nat) :
    ∀ p ∈ get_relevant_tags_for_persona vs tags query campaign k,
      p.2.length ≤ 303 := by
  intro p hp
  cases vs with
  | none => simp [get_relevant_tags_for_persona] at hp
  | some q =>
    unfold get_relevant_tags_for_persona at hp
    have hp2 := List.mem_of_mem_take hp
    clear hp
    split at hp2
    · rcases List.mem_append.mp hp2 with hbase | hextra
      · obtain ⟨t, -, hmem⟩ := List.mem_flatMap.mp hbase
        obtain ⟨d, -, rfl⟩ := List.mem_map.mp hmem
        exact truncateContext_length_le _
      · obtain ⟨d, -, rfl⟩ := List.mem_map.mp hextra
        exact truncateContext_length_le _
    · obtain ⟨t, -, hmem⟩ := List.mem_flatMap.mp hp2
      obtain ⟨d, -, rfl⟩ := List.mem_map.mp hmem
      exact truncateContext_length_le _

/-- C4, witness: the 400-character chunk's entry, concretely. -/
theorem C4_truncation_bound_witness :
    (("a", truncateContext (List.replicate 400 'x')) : String × List Char).2.length ≤ 303 :=
  C4_truncation_bound exampleStore400 ["a"] "" none 10 _ (by decide)

/-! ### Claim C2 -/

/-- C2: for every non-empty relative path, `_extract_metadata` classifies
`campaigns/<name>/...` with at least 4 segments as a campaign tag whose
campaign is the second segment; `global/...` with at least 3 segments as a
global tag with null campaign; everything else as other with null
campaign; and the tag name is the file stem in all three cases. -/
theorem C2_classify (p0 : String) (rest : List String) :
    (∀ c rest2, p0 :: rest = "campaigns" :: c :: rest2 →
        (p0 :: rest).length ≥ 4 →
        extract_metadata (p0 :: rest)
          = some { type := Scope.campaign_tag, campaign := some c
                   tag_name := pathStem ((p0 :: rest).getLastD "") })
    ∧ (p0 = "global" → (p0 :: rest).length ≥ 3 →
        extract_metadata (p0 :: rest)
          = some { type := Scope.global_tag, campaign := none
                   tag_name := pathStem ((p0 :: rest).getLastD "") })
    ∧ (¬ (p0 = "campaigns" ∧ (p0 :: rest).length ≥ 4) →
        ¬ (p0 = "global" ∧ (p0 :: rest).length ≥ 3) →
        extract_metadata (p0 :: rest)
          = some { type := Scope.other, campaign := none
                   tag_name := pathStem ((p0 :: rest).getLastD "") }) := by
  refine ⟨?_, ?_, ?_⟩
  · rintro c rest2 heq hlen
    cases heq
    simp only [extract_metadata]
    rw [if_pos ⟨trivial, hlen⟩]
    rfl
  · rintro rfl hlen
    simp only [extract_metadata]
    rw [if_neg (by simp), if_pos ⟨trivial, hlen⟩]
  · intro h1 h2
    simp only [extract_metadata]
    rw [if_neg ?_, if_neg ?_]
    · intro hcond
      exact h2 ⟨by simpa using hcond.1, hcond.2⟩
    · intro hcond
      exact h1 ⟨by simpa using hcond.1, hcond.2⟩

/-- C2, witness: the three path shapes, concretely. -/
theorem C2_classify_witness :
    extract_metadata ["campaigns", "c", "tags", "t.txt"]
      = some { type := Scope.campaign_tag, campaign := some "c", tag_name := "t" }
    ∧ extract_metadata ["global", "tags", "t.txt"]
      = some { type := Scope.global_tag, campaign := none, tag_name := "t" }
    ∧ extract_metadata ["notes.txt"]
      = some { type := Scope.other, campaign := none, tag_name := "notes" } :=
  ⟨(C2_classify "campaigns" ["c", "tags", "t.txt"]).1 "c" ["tags", "t.txt"] rfl (by decide),
   (C2_classify "global" ["tags", "t.txt"]).2.1 rfl (by decide),
   (C2_classify "notes.txt" []).2.2 (by decide) (by decide)⟩

/-! ### Claim C3 -/

theorem eq_append_singleton_of_take {α : Type} (dir p : List α)
    (h1 : p.length = dir.length + 1) (h2 : p.take dir.length = dir) :
    ∃ x, p = dir ++ [x] := by
  have hsplit := List.take_append_drop dir.length p
  have hlen : (p.drop dir.length).length = 1 := by
    simp only [List.length_drop]
    omega
  obtain ⟨x, hx⟩ := List.length_eq_one.mp hlen
  exact ⟨x, by rw [← hsplit, h2, hx]⟩

/-- C3, counterexample: Python truthiness routes the empty-string campaign
`""` to the global scope, so `load_tag_documents` then returns a document
whose `campaign` metadata (`None`) differs from the requested campaign
(`""`). -/
theorem C3_counterexample :
    ¬ (∀ d ∈ load_tag_documents [["global", "tags", "t.txt"]] "t" (some ""),
        d.meta.map TagMetadata.campaign = some (some "")) := by
  decide

/-- C3 (amended): for every filesystem, tag name, and requested campaign
that is either null or a non-empty string, every document returned by
`load_tag_documents` carries a `campaign` metadata field equal to the
requested campaign — a campaign-scoped query never returns a global
document and a global query never returns a campaign document.  (The
empty-string campaign is falsy in Python and is treated as the global
scope, see the counterexample.) -/
theorem C3_scope_isolation (fs : List (List String)) (tag_name : String)
    (campaign : Option String)
    (hcamp : campaign = none ∨ ∃ c, campaign = some c ∧ c ≠ "") :
    ∀ d ∈ load_tag_documents fs tag_name campaign,
      d.meta.map TagMetadata.campaign = some campaign := by
  intro d hd
  unfold load_tag_documents at hd
  rcases hcamp with rfl | ⟨c, rfl, hc⟩
  · simp only [pyTruthy, if_neg Bool.false_ne_true] at hd
    rcases List.mem_append.mp hd with hsingle | hmulti
    · split at hsingle
      · rcases List.mem_singleton.mp hsingle with rfl
        rfl
      · exact absurd hsingle (List.not_mem_nil _)
    · obtain ⟨p, hpfs, rfl⟩ := List.mem_map.mp hmulti
      have hfilt := List.of_mem_filter hpfs
      simp only [directTxtChildOf, Bool.and_eq_true, decide_eq_true_eq] at hfilt
      obtain ⟨⟨hplen, hptake⟩, -⟩ := hfilt
      obtain ⟨x, rfl⟩ := eq_append_singleton_of_take _ p hplen hptake
      rfl
  · have ht : pyTruthy (some c) = true := by
      simp [pyTruthy, hc]
    rw [ht] at hd
    simp only [if_true, Option.getD] at hd
    rcases List.mem_append.mp hd with hsingle | hmulti
    · split at hsingle
      · rcases List.mem_singleton.mp hsingle with rfl
        rfl
      · exact absurd hsingle (List.not_mem_nil _)
    · obtain ⟨p, hpfs, rfl⟩ := List.mem_map.mp hmulti
      have hfilt := List.of_mem_filter hpfs
      simp only [directTxtChildOf, Bool.and_eq_true, decide_eq_true_eq] at hfilt
      obtain ⟨⟨hplen, hptake⟩, -⟩ := hfilt
      obtain ⟨x, rfl⟩ := eq_append_singleton_of_take _ p hplen hptake
      rfl

/-- C3, witness: a global query over a one-file global filesystem. -/
theorem C3_scope_isolation_witness :
    (load_document ["global", "tags", "t.txt"]).meta.map TagMetadata.campaign
      = some none :=
  C3_scope_isolation [["global", "tags", "t.txt"]] "t" none (Or.inl rfl) _
    (by decide)

/-! ### Claim C5 -/

theorem splitText_ne_nil (cs co : Nat) (t : List Char) :
    splitText cs co t ≠ [] := by
  unfold splitText
  split <;> simp

theorem splitText_head_length (cs co : Nat) (t : List Char) (hco : co < cs)
    (hlen : co < t.length) :
    co < ((splitText cs co t).headD []).length := by
  unfold splitText
  split
  · simpa using hlen
  · rename_i h
    push_neg at h
    simp only [List.headD_cons, List.length_take]
    omega

theorem splitText_rejoin_aux (cs co : Nat) (hco : co < cs) :
    ∀ (n : Nat) (t : List Char), t.length ≤ n →
      rejoinChunks co (splitText cs co t) = t := by
  intro n
  induction n with
  | zero =>
    intro t ht
    have : t = [] := List.eq_nil_of_length_eq_zero (Nat.le_zero.mp ht)
    subst this
    rw [splitText]
    simp [rejoinChunks]
  | succ n ih =>
    intro t ht
    rw [splitText]
    split
    · simp [rejoinChunks]
    · rename_i hcond
      push_neg at hcond
      obtain ⟨hlong, -⟩ := hcond
      have hstep : 0 < cs - co := by omega
      have hrec : rejoinChunks co (splitText cs co (t.drop (cs - co)))
          = t.drop (cs - co) := by
        refine ih _ ?_
        simp only [List.length_drop]
        omega
      obtain ⟨h0, rest, hsp⟩ :
          ∃ h0 rest, splitText cs co (t.drop (cs - co)) = h0 :: rest := by
        cases hq : splitText cs co (t.drop (cs - co)) with
        | nil => exact absurd hq (splitText_ne_nil cs co _)
        | cons a b => exact ⟨a, b, rfl⟩
      rw [hsp]
      rw [hsp] at hrec
      simp only [rejoinChunks, List.map_cons, List.flatten_cons] at hrec ⊢
      have hco_le : co ≤ h0.length := by
        have hdl : co < (t.drop (cs - co)).length := by
          simp only [List.length_drop]
          omega
        have := splitText_head_length cs co (t.drop (cs - co)) hco hdl
        rw [hsp] at this
        simpa using this.le
      calc t.take cs ++ (h0.drop co ++ (rest.map (List.drop co)).flatten)
          = t.take cs ++ (h0 ++ (rest.map (List.drop co)).flatten).drop co := by
            rw [List.drop_append_of_le_length hco_le]
        _ = t.take cs ++ (t.drop (cs - co)).drop co := by rw [hrec]
        _ = t.take cs ++ t.drop cs := by
            rw [List.drop_drop]
            have hcc : cs - co + co = cs := by omega
            rw [hcc]
        _ = t := List.take_append_drop cs t

/-- C5: chunking is content-preserving — for every document text, every
`chunk_size ≥ 1` and every `chunk_overlap < chunk_size`, re-joining the
chunks produced by `splitText` with the overlapping prefixes stripped
reproduces the original text exactly. -/
theorem C5_chunking_content_preserving (chunk_size chunk_overlap : Nat)
    (text : List Char) (h1 : 1 ≤ chunk_size)
    (h2 : chunk_overlap < chunk_size) :
    rejoinChunks chunk_overlap (splitText chunk_size chunk_overlap text)
      = text :=
  splitText_rejoin_aux chunk_size chunk_overlap h2 text.length text le_rfl

/-- C5, witness: the default-shaped configuration scaled down
(`chunk_size = 5`, `chunk_overlap = 2`) on a concrete text. -/
theorem C5_chunking_witness :
    rejoinChunks 2 (splitText 5 2 "hello, vectorstore".toList)
      = "hello, vectorstore".toList :=
  C5_chunking_content_preserving 5 2 "hello, vectorstore".toList
    (by decide) (by decide)

/-! ### Claim C6 -/

/-- C6: `needs_update` is true iff no checkpoint exists or some source
`.txt` file's modification time is strictly later than the checkpoint
timestamp; consequently it is true after any file's modification time is
bumped past the checkpoint, and false when no file is newer than the
checkpoint (as after a successful rebuild with no further changes). -/
theorem C6_staleness (parseISO : String → Option Int) (s : String) (t : Int)
    (mtimes : List Int) (hs : parseISO s = some t) :
    (needs_update parseISO none mtimes = Except.ok true)
    ∧ (needs_update parseISO
          (some (some (JsonVal.jobj [("last_updated", JsonVal.jstr s)])))
          mtimes = Except.ok true
        ↔ ∃ m ∈ mtimes, t < m)
    ∧ (∀ m ∈ mtimes, t < m →
        needs_update parseISO
          (some (some (JsonVal.jobj [("last_updated", JsonVal.jstr s)])))
          mtimes = Except.ok true)
    ∧ ((∀ m ∈ mtimes, m ≤ t) →
        needs_update parseISO
          (some (some (JsonVal.jobj [("last_updated", JsonVal.jstr s)])))
          mtimes = Except.ok false) := by
  have hget : get_last_updated parseISO
      (some (some (JsonVal.jobj [("last_updated", JsonVal.jstr s)])))
      = Except.ok (some t) := by
    simp [get_last_updated, jsonLookup, hs]
  have hmain : needs_update parseISO
      (some (some (JsonVal.jobj [("last_updated", JsonVal.jstr s)]))) mtimes
      = Except.ok (needs_update_from (some t) mtimes) := by
    rw [needs_update, hget]
    rfl
  refine ⟨rfl, ?_, ?_, ?_⟩
  · rw [hmain]
    simp [needs_update_from, List.any_eq_true]
  · intro m hm hlt
    rw [hmain]
    simp only [needs_update_from, Except.ok.injEq]
    rw [List.any_eq_true]
    exact ⟨m, hm, by simpa using hlt⟩
  · intro hall
    rw [hmain]
    simp only [needs_update_from, Except.ok.injEq]
    rw [List.any_eq_false]
    intro m hm
    simpa using Int.not_lt.mpr (hall m hm)

/-- C6, witness: checkpoint at time 5, files at times 3 and 7 (stale) and
checkpoint at 9 (fresh). -/
theorem C6_staleness_witness :
    needs_update (fun _ => some 5)
      (some (some (JsonVal.jobj [("last_updated", JsonVal.jstr "T5")])))
      [3, 7] = Except.ok true
    ∧ needs_update (fun _ => some 9)
        (some (some (JsonVal.jobj [("last_updated", JsonVal.jstr "T9")])))
        [3, 7] = Except.ok false :=
  ⟨(C6_staleness (fun _ => some 5) "T5" 5 [3, 7] rfl).2.2.1 7 (by decide)
      (by decide),
   (C6_staleness (fun _ => some 9) "T9" 9 [3, 7] rfl).2.2.2 (by decide)⟩

/-! ### Claim C7 -/

/-- C7, counterexample: with the index storage absent or empty,
`get_vectorstore` calls `create_vectorstore()` with the default
`clean_start=False`, not `clean=true` as the claim states. -/
theorem C7_counterexample :
    get_vectorstore_action { index := none, checkpoint := none, sourceDocs := [] }
      = VSAction.rebuild false
    ∧ VSAction.rebuild false ≠ VSAction.rebuild true := by
  constructor <;> decide

/-- C7 (amended): `get_vectorstore` dispatches in three cases — when the
index storage is absent or empty it rebuilds with `clean_start = false`
(the default, equivalent in effect since the storage is empty); else when
stale it rebuilds with `clean_start = false`; else it returns the existing
index handle with the state unchanged (no index mutation, no checkpoint
write). -/
theorem C7_dispatch (env : BuildEnv) (st : MState) :
    (st.index = none →
        get_vectorstore env st = create_vectorstore env false 1000 200 st
        ∧ get_vectorstore_action st = VSAction.rebuild false)
    ∧ (st.index ≠ none →
        needs_update_from st.checkpoint st.mtimes = true →
        get_vectorstore env st = create_vectorstore env false 1000 200 st
        ∧ get_vectorstore_action st = VSAction.rebuild false)
    ∧ (∀ chunks, st.index = some chunks →
        needs_update_from st.checkpoint st.mtimes = false →
        get_vectorstore env st = BuildResult.done st (some chunks)
        ∧ get_vectorstore_action st = VSAction.openExisting) := by
  refine ⟨?_, ?_, ?_⟩
  · intro hnone
    constructor
    · unfold get_vectorstore
      rw [if_pos (by simp [hnone])]
    · unfold get_vectorstore_action
      rw [if_pos (by simp [hnone])]
  · intro hsome hstale
    have hisNone : st.index.isNone = false := by
      rw [Bool.eq_false_iff]
      intro hcon
      exact hsome (Option.isNone_iff_eq_none.mp hcon)
    constructor
    · unfold get_vectorstore
      rw [if_neg (by simp [hisNone]), if_pos hstale]
    · unfold get_vectorstore_action
      rw [if_neg (by simp [hisNone]), if_pos hstale]
  · intro chunks hchunks hfresh
    have hisNone : st.index.isNone = false := by
      simp [hchunks]
    constructor
    · unfold get_vectorstore
      rw [if_neg (by simp [hisNone]), if_neg (by simp [hfresh]), hchunks]
      rfl
    · unfold get_vectorstore_action
      rw [if_neg (by simp [hisNone]), if_neg (by simp [hfresh])]

/-- C7, witness: a fresh store (index present, checkpoint newer than the
single source file) is opened and returned with no state change. -/
theorem C7_dispatch_witness :
    get_vectorstore { now := 0, embedOk := true }
        { index := some [['x']], checkpoint := some 5
          sourceDocs := [{ parts := ["global", "tags", "t.txt"]
                           content := ['h'], mtime := 4 }] }
      = BuildResult.done
          { index := some [['x']], checkpoint := some 5
            sourceDocs := [{ parts := ["global", "tags", "t.txt"]
                             content := ['h'], mtime := 4 }] }
          (some [['x']]) :=
  ((C7_dispatch { now := 0, embedOk := true } _).2.2 [['x']] rfl
    (by decide)).1

/-! ### Claim C8 -/

/-- C8: build atomicity with respect to the checkpoint — when the
embedding-service/storage call fails, `create_vectorstore` raises, the
checkpoint is untouched and the staleness signal is unchanged (so a stale
state stays stale on the next run); the checkpoint is advanced to the
current time only on success. -/
theorem C8_checkpoint_atomicity (env : BuildEnv) (clean_start : Bool)
    (chunk_size chunk_overlap : Nat) (st : MState)
    (hdocs : st.sourceDocs ≠ []) :
    (env.embedOk = false →
        ∃ st2, create_vectorstore env clean_start chunk_size chunk_overlap st
            = BuildResult.raised st2 BuildErr.indexBuild
          ∧ st2.checkpoint = st.checkpoint
          ∧ st2.sourceDocs = st.sourceDocs
          ∧ needs_update_from st2.checkpoint st2.mtimes
              = needs_update_from st.checkpoint st.mtimes)
    ∧ (env.embedOk = true →
        ∃ st2 chunks,
          create_vectorstore env clean_start chunk_size chunk_overlap st
            = BuildResult.done st2 (some chunks)
          ∧ st2.checkpoint = some env.now) := by
  have hempty : st.sourceDocs.isEmpty = false := by
    simpa [List.isEmpty_iff] using hdocs
  cases clean_start with
  | false =>
    constructor
    · intro hfail
      refine ⟨st, ?_, rfl, rfl, rfl⟩
      unfold create_vectorstore
      rw [if_neg (by simp [hempty]), if_neg (by simp [hfail])]
      simp
    · intro hok
      unfold create_vectorstore
      rw [if_neg (by simp [hempty]), if_pos (by simp [hok])]
      exact ⟨_, _, rfl, rfl⟩
  | true =>
    constructor
    · intro hfail
      refine ⟨{ st with index := none }, ?_, rfl, rfl, rfl⟩
      unfold create_vectorstore
      rw [if_neg (by simp [hempty]), if_neg (by simp [hfail])]
      simp
    · intro hok
      unfold create_vectorstore
      rw [if_neg (by simp [hempty]), if_pos (by simp [hok])]
      exact ⟨_, _, rfl, rfl⟩

/-- C8, witness: a one-document corpus with a failing embedding call, and
the same corpus with a succeeding one. -/
theorem C8_checkpoint_atomicity_witness :
    (∃ st2, create_vectorstore { now := 9, embedOk := false } false 1000 200
          { index := none, checkpoint := some 5
            sourceDocs := [{ parts := ["global", "tags", "t.txt"]
                             content := ['h'], mtime := 7 }] }
        = BuildResult.raised st2 BuildErr.indexBuild
      ∧ st2.checkpoint = some 5
      ∧ st2.sourceDocs = [{ parts := ["global", "tags", "t.txt"]
                            content := ['h'], mtime := 7 }]
      ∧ needs_update_from st2.checkpoint st2.mtimes
          = needs_update_from (some 5) [7])
    ∧ (∃ st2 chunks,
        create_vectorstore { now := 9, embedOk := true } false 1000 200
            { index := none, checkpoint := some 5
              sourceDocs := [{ parts := ["global", "tags", "t.txt"]
                               content := ['h'], mtime := 7 }] }
          = BuildResult.done st2 (some chunks)
        ∧ st2.checkpoint = some 9) :=
  ⟨(C8_checkpoint_atomicity { now := 9, embedOk := false } false 1000 200 _
      (by decide)).1 rfl,
   (C8_checkpoint_atomicity { now := 9, embedOk := true } false 1000 200 _
      (by decide)).2 rfl⟩

/-! ### Claim C9 -/

/-- C9, counterexample: `create_vectorstore` with `clean_start=True` on an
empty source corpus clears a previously non-empty index storage before the
empty-corpus check, so the index state is not left untouched. -/
theorem C9_counterexample :
    create_vectorstore { now := 0, embedOk := true } true 1000 200
        { index := some [['x']], checkpoint := none, sourceDocs := [] }
      = BuildResult.done { index := none, checkpoint := none, sourceDocs := [] }
          none
    ∧ (none : Option (List (List Char))) ≠ some [['x']] := by
  constructor <;> decide

/-- C9 (amended): `create_vectorstore` on an empty source corpus returns
null (`None`), performs no index create/append, and writes no checkpoint —
the checkpoint state is untouched and the index state is untouched except
that `clean_start=True` first clears the index storage; in particular with
no prior checkpoint the run leaves no checkpoint. -/
theorem C9_empty_corpus (env : BuildEnv) (clean_start : Bool)
    (chunk_size chunk_overlap : Nat) (st : MState)
    (hdocs : st.sourceDocs = []) :
    create_vectorstore env clean_start chunk_size chunk_overlap st
      = BuildResult.done
          { index := if clean_start then none else st.index
            checkpoint := st.checkpoint
            sourceDocs := st.sourceDocs }
          none := by
  cases clean_start with
  | false =>
    unfold create_vectorstore
    rw [if_pos (by simp [hdocs])]
    simp
  | true =>
    unfold create_vectorstore
    rw [if_pos (by simp [hdocs])]
    simp

/-- C9, witness: `clean_start=True`, empty source tree, no prior
checkpoint: null is returned and no checkpoint is left. -/
theorem C9_empty_corpus_witness :
    create_vectorstore { now := 3, embedOk := true } true 1000 200
        { index := none, checkpoint := none, sourceDocs := [] }
      = BuildResult.done { index := none, checkpoint := none, sourceDocs := [] }
          none :=
  C9_empty_corpus { now := 3, embedOk := true } true 1000 200
    { index := none, checkpoint := none, sourceDocs := [] } rfl

/-! ### Claim C10 -/

/-- C10, counterexample: a checkpoint file holding the valid JSON document
`[]` lacks the `last_updated` key, yet `get_last_updated` does not return
null — subscripting a non-dict raises a `TypeError` that the
`except (JSONDecodeError, KeyError, ValueError)` clause does not catch, so
`needs_update` raises instead of returning true. -/
theorem C10_counterexample :
    get_last_updated (fun _ => none) (some (some (JsonVal.jarr [])))
      ≠ Except.ok none
    ∧ needs_update (fun _ => none) (some (some (JsonVal.jarr []))) []
      ≠ Except.ok true
    ∧ get_last_updated (fun _ => none) (some (some (JsonVal.jarr [])))
      = Except.error PyErr.typeError :=
  by
  refine ⟨?_, ?_, rfl⟩
  · intro h
    exact nomatch h
  · intro h
    exact nomatch h

/-- C10 (amended): a corrupt checkpoint is treated like an absent one in
exactly these cases — file absent, content not valid JSON, a JSON object
lacking the `last_updated` key, or a `last_updated` string rejected by the
ISO-8601 parser: `get_last_updated` returns null and `needs_update`
returns true.  A JSON document that is not an object, or a `last_updated`
value that is not a string, instead raises an uncaught `TypeError`. -/
theorem C10_corrupt_checkpoint (parseISO : String → Option Int)
    (mtimes : List Int) (fields : List (String × JsonVal)) (s : String) :
    (get_last_updated parseISO none = Except.ok none
      ∧ needs_update parseISO none mtimes = Except.ok true)
    ∧ (get_last_updated parseISO (some none) = Except.ok none
      ∧ needs_update parseISO (some none) mtimes = Except.ok true)
    ∧ (jsonLookup fields "last_updated" = none →
        get_last_updated parseISO (some (some (JsonVal.jobj fields)))
          = Except.ok none
        ∧ needs_update parseISO (some (some (JsonVal.jobj fields))) mtimes
          = Except.ok true)
    ∧ (jsonLookup fields "last_updated" = some (JsonVal.jstr s) →
        parseISO s = none →
        get_last_updated parseISO (some (some (JsonVal.jobj fields)))
          = Except.ok none
        ∧ needs_update parseISO (some (some (JsonVal.jobj fields))) mtimes
          = Except.ok true)
    ∧ (∀ v, jsonLookup fields "last_updated" = some v →
        (∀ s2, v ≠ JsonVal.jstr s2) →
        get_last_updated parseISO (some (some (JsonVal.jobj fields)))
          = Except.error PyErr.typeError)
    ∧ (∀ v, (∀ fs, v ≠ JsonVal.jobj fs) →
        get_last_updated parseISO (some (some v))
          = Except.error PyErr.typeError) := by
  refine ⟨⟨rfl, rfl⟩, ⟨rfl, rfl⟩, ?_, ?_, ?_, ?_⟩
  · intro hlk
    constructor
    · simp [get_last_updated, hlk]
    · simp [needs_update, get_last_updated, hlk]
      rfl
  · intro hlk hiso
    constructor
    · simp [get_last_updated, hlk, hiso]
    · simp [needs_update, get_last_updated, hlk, hiso]
      rfl
  · intro v hlk hnotstr
    cases v with
    | jstr s2 => exact absurd rfl (hnotstr s2)
    | jnull => simp [get_last_updated, hlk]
    | jbool b => simp [get_last_updated, hlk]
    | jnum n => simp [get_last_updated, hlk]
    | jarr xs => simp [get_last_updated, hlk]
    | jobj fs => simp [get_last_updated, hlk]
  · intro v hnotobj
    cases v with
    | jobj fs => exact absurd rfl (hnotobj fs)
    | jnull => rfl
    | jbool b => rfl
    | jnum n => rfl
    | jstr s2 => rfl
    | jarr xs => rfl

/-- C10, witness: an object without the key, and a non-ISO string. -/
theorem C10_corrupt_checkpoint_witness :
    needs_update (fun _ => none) (some (some (JsonVal.jobj []))) [3]
      = Except.ok true
    ∧ needs_update (fun _ => none)
        (some (some (JsonVal.jobj [("last_updated", JsonVal.jstr "garbage")])))
        [3] = Except.ok true :=
  ⟨((C10_corrupt_checkpoint (fun _ => none) [3] [] "garbage").2.2.1 rfl).2,
   ((C10_corrupt_checkpoint (fun _ => none) [3]
      [("last_updated", JsonVal.jstr "garbage")] "garbage").2.2.2.1 rfl
      rfl).2⟩

end DoYouNpc
